import Mathlib

/-
Verification of the LyricDisplay NDI companion's frame pipeline and output
lifecycle orchestrator.  The definitions below are a shallow embedding of
the relevant JavaScript source:

  * `OutputCapture` and the pacing functions embed capture.js
    (the adaptive capture loop variant);
  * `NdiSender` embeds ndi.js;
  * `TeardownStep` traces and `destroyOutput` embed the teardown path of
    index.js together with `NdiSender.destroy` and `OutputCapture.stop`;
  * the settings definitions embed settings.js;
  * `syncOne` / `syncList` / `syncOutputs` embed the reconciliation loop
    of index.js, with `Op` recording the lifecycle operations it performs.
-/

namespace LyricDisplayNdi

/- ===================== Frames and the capture state ===================== -/

/-- A decoded RGBA frame as stored in the latest-frame cell:
`{ data, width, height, timestamp }` in capture.js. -/
structure Frame where
  data : List Nat
  width : Int
  height : Int
  timestamp : Int
deriving DecidableEq, Repr

/-- State of one `OutputCapture` instance (capture.js).  `loopTargetInterval`
is the `targetInterval` value bound by `startPolling` and passed once to
`_captureLoop`; it is `none` while no loop is running. -/
structure OutputCapture where
  outputKey : String
  width : Int
  height : Int
  framerate : Int
  running : Bool
  frameCount : Nat
  latestFrame : Option Frame
  loopTargetInterval : Option ℚ
deriving DecidableEq, Repr

/-- The `OutputCapture` constructor: no loop running, no frame captured yet. -/
def OutputCapture.init (key : String) (w h fr : Int) : OutputCapture :=
  { outputKey := key, width := w, height := h, framerate := fr,
    running := false, frameCount := 0, latestFrame := none,
    loopTargetInterval := none }

/-- `startPolling`: if already running do nothing, otherwise mark running and
start `_captureLoop` with `targetInterval = 1000 / this.framerate`. -/
def OutputCapture.startPolling (s : OutputCapture) : OutputCapture :=
  if s.running then s
  else { s with running := true,
                loopTargetInterval := some (1000 / (s.framerate : ℚ)) }

/-- The successful branch of one `_captureLoop` cycle body: store the decoded
frame in `_latestFrame` and bump `_frameCount`. -/
def OutputCapture.publish (s : OutputCapture) (f : Frame) : OutputCapture :=
  { s with latestFrame := some f, frameCount := s.frameCount + 1 }

/-- A sequence of successful capture cycles, earliest first. -/
def OutputCapture.publishAll (s : OutputCapture) (fs : List Frame) : OutputCapture :=
  fs.foldl OutputCapture.publish s

/-- `getLatestFrame`: the cell read by the NDI sender. -/
def OutputCapture.getLatestFrame (s : OutputCapture) : Option Frame :=
  s.latestFrame

/-- `setFramerate` in capture.js: assigns `this.framerate = fps` and nothing
else; the running loop keeps the `targetInterval` it was started with. -/
def OutputCapture.setFramerate (s : OutputCapture) (fps : Int) : OutputCapture :=
  { s with framerate := fps }

/-- `stop` in capture.js: clear the running flag and the latest-frame cell. -/
def OutputCapture.stop (s : OutputCapture) : OutputCapture :=
  { s with running := false, latestFrame := none }

/- ===================== Capture-loop pacing ===================== -/

/-- `targetInterval = 1000 / this.framerate` computed in `startPolling`. -/
def targetIntervalMs (framerate : ℚ) : ℚ := 1000 / framerate

/-- The end-of-cycle sleep of `_captureLoop`:
`sleepMs = Math.max(1, targetInterval - elapsed)`. -/
def sleepMs (targetInterval elapsed : ℚ) : ℚ :=
  max 1 (targetInterval - elapsed)

/-- Start times of the successive capture cycles of one `_captureLoop` run:
cycle `i` starts at `starts[i]`, runs for `elapsed[i]`, then sleeps
`sleepMs targetInterval elapsed[i]` before cycle `i+1` starts. -/
def cycleStarts (targetInterval t0 : ℚ) : List ℚ → List ℚ
  | [] => []
  | e :: es => t0 :: cycleStarts targetInterval (t0 + e + sleepMs targetInterval e) es

/- ===================== The NDI sender ===================== -/

/-- State of one `NdiSender` instance (ndi.js).  `senderOpen` models whether
`this.sender` is non-null; `frameInterval` is the interval (in ms) of the
running `setInterval` transmission timer, `none` when stopped. -/
structure NdiSender where
  sourceName : String
  width : Int
  height : Int
  framerate : Int
  senderOpen : Bool
  frameInterval : Option Int
  frameCount : Nat
  isRunning : Bool
deriving DecidableEq, Repr

/-- The `NdiSender` constructor. -/
def NdiSender.init (name : String) (w h fr : Int) : NdiSender :=
  { sourceName := name, width := w, height := h, framerate := fr,
    senderOpen := false, frameInterval := none, frameCount := 0,
    isRunning := false }

/-- `initialize` (success path): allocate the native sender. -/
def NdiSender.initializeSender (s : NdiSender) : NdiSender :=
  { s with senderOpen := true }

/-- `startSending`: no-op when already running or not initialized; otherwise
start a `setInterval` timer at `Math.round(1000 / this.framerate)` ms. -/
def NdiSender.startSending (s : NdiSender) : NdiSender :=
  if s.isRunning then s
  else if !s.senderOpen then s
  else { s with isRunning := true,
                frameInterval := some (round ((1000 : ℚ) / (s.framerate : ℚ))) }

/-- `stopSending`: clear the transmission timer and the running flag. -/
def NdiSender.stopSending (s : NdiSender) : NdiSender :=
  { s with frameInterval := none, isRunning := false }

/-- `setFramerate` in ndi.js: if changed, store the new rate and, when
running, restart the transmission timer at the new interval. -/
def NdiSender.setFramerate (s : NdiSender) (fps : Int) : NdiSender :=
  if fps = s.framerate then s
  else
    let s1 := { s with framerate := fps }
    if s.isRunning then s1.stopSending.startSending else s1

/- ===================== Teardown traces ===================== -/

/-- The observable teardown actions performed while destroying one output. -/
inductive TeardownStep where
  | stopTransmission
  | releaseSender
  | stopCapture
  | clearFrameBuffer
  | releaseSurface
deriving DecidableEq, Repr

/-- `NdiSender.destroy`: `stopSending()` then `_destroySender()`. -/
def ndiDestroyTrace : List TeardownStep :=
  [TeardownStep.stopTransmission, TeardownStep.releaseSender]

/-- `OutputCapture.stop`: set `_running = false` (the loop exits) then
`_latestFrame = null`. -/
def captureStopTrace : List TeardownStep :=
  [TeardownStep.stopCapture, TeardownStep.clearFrameBuffer]

/-- `destroyOutput` on an active output (index.js):
`output.ndiSender.destroy()`, then `await output.capture.stop()`, then
`await browserManager.destroyOutputPage(outputKey)`. -/
def destroyOutputTrace : List TeardownStep :=
  ndiDestroyTrace ++ captureStopTrace ++ [TeardownStep.releaseSurface]

/-- The teardown ordering asserted by the specification: transmission stops
first, then capture, then the sender and render-surface resources are
released, and the frame cell is cleared last. -/
def specTeardownOrder (t : List TeardownStep) : Prop :=
  t.indexOf TeardownStep.stopTransmission < t.indexOf TeardownStep.stopCapture ∧
  t.indexOf TeardownStep.stopCapture < t.indexOf TeardownStep.releaseSender ∧
  t.indexOf TeardownStep.stopCapture < t.indexOf TeardownStep.releaseSurface ∧
  t.indexOf TeardownStep.releaseSender < t.indexOf TeardownStep.clearFrameBuffer ∧
  t.indexOf TeardownStep.releaseSurface < t.indexOf TeardownStep.clearFrameBuffer

/- ===================== Orchestrator state and operations ===================== -/

/-- The per-output configuration fields the reconciliation loop compares:
`width`, `height`, `framerate`, `sourceName`. -/
structure OutConfig where
  width : Int
  height : Int
  framerate : Int
  sourceName : String
deriving DecidableEq, Repr

/-- The lifecycle operations `syncOutputs` can perform on a pipeline.
`setFramerate` stands for the paired `ndiSender.setFramerate` /
`capture.setFramerate` calls; `setSourceName` for `ndiSender.setSourceName`. -/
inductive Op where
  | create (key : String)
  | destroy (key : String)
  | setFramerate (key : String) (fps : Int)
  | setSourceName (key : String) (name : String)
deriving DecidableEq, Repr

/-- The output key an operation acts on. -/
def Op.key : Op → String
  | .create k => k
  | .destroy k => k
  | .setFramerate k _ => k
  | .setSourceName k _ => k

/-- The `outputs` map of index.js, each active output with its stored config. -/
abbrev OutMap := List (String × OutConfig)

/-- `outputs[key]?.config` — association-list lookup. -/
def lookupKey (m : OutMap) (k : String) : Option OutConfig :=
  (m.find? (fun p => p.1 == k)).map Prod.snd

/-- `delete outputs[key]`. -/
def removeKey (m : OutMap) (k : String) : OutMap :=
  m.filter (fun p => p.1 != k)

/-- In-place mutation of the stored config of key `k`. -/
def setConfig (m : OutMap) (k : String) (c : OutConfig) : OutMap :=
  m.map (fun p => if p.1 = k then (p.1, c) else p)

/-- One iteration of the create-or-update loop of `syncOutputs` for the
snapshot entry `(key, config)`.  Mirrors index.js: an existing pipeline is
checked for geometry change (`needsRecreate`), gets `setFramerate` /
`setSourceName` updates for changed scalar fields (the stored config ends up
carrying the snapshot's framerate and sourceName), and is destroyed and
recreated when geometry changed; a missing pipeline is created. -/
def syncOne (state : OutMap) (entry : String × OutConfig) : OutMap × List Op :=
  match lookupKey state entry.1 with
  | some oldConfig =>
    let k := entry.1
    let nc := entry.2
    let needsRecreate : Bool := oldConfig.width != nc.width || oldConfig.height != nc.height
    let frOps : List Op :=
      if oldConfig.framerate != nc.framerate then [Op.setFramerate k nc.framerate] else []
    let snOps : List Op :=
      if oldConfig.sourceName != nc.sourceName then [Op.setSourceName k nc.sourceName] else []
    let state1 := setConfig state k
      { oldConfig with framerate := nc.framerate, sourceName := nc.sourceName }
    if needsRecreate then
      (removeKey state1 k ++ [(k, nc)], frOps ++ snOps ++ [Op.destroy k, Op.create k])
    else
      (state1, frOps ++ snOps)
  | none => (state ++ [(entry.1, entry.2)], [Op.create entry.1])

/-- The create-or-update loop of `syncOutputs` over the whole snapshot,
in order, threading the `outputs` map and collecting performed operations. -/
def syncList (state : OutMap) : List (String × OutConfig) → OutMap × List Op
  | [] => (state, [])
  | e :: rest =>
    let r1 := syncOne state e
    let r2 := syncList r1.1 rest
    (r2.1, r1.2 ++ r2.2)

/-- `syncOutputs` of index.js: first destroy every active output whose key is
no longer in the enabled snapshot, then create or update each enabled
output in snapshot order. -/
def syncOutputs (state : OutMap) (snapshot : List (String × OutConfig)) :
    OutMap × List Op :=
  let enabledKeys := snapshot.map Prod.fst
  let removed := state.filter (fun p => !(enabledKeys.contains p.1))
  let kept := state.filter (fun p => enabledKeys.contains p.1)
  let r := syncList kept snapshot
  (r.1, removed.map (fun p => Op.destroy p.1) ++ r.2)

/-- The active-outputs map faithfully reflects a snapshot: every snapshot
entry is stored with exactly its snapshot config, no other keys are active,
and keys are unique. -/
def Matched (state : OutMap) (snapshot : List (String × OutConfig)) : Prop :=
  (∀ e ∈ snapshot, lookupKey state e.1 = some e.2) ∧
  (∀ p ∈ state, p.1 ∈ snapshot.map Prod.fst) ∧
  (state.map Prod.fst).Nodup

instance (state : OutMap) (snapshot : List (String × OutConfig)) :
    Decidable (Matched state snapshot) := by
  unfold Matched
  infer_instance

/-- `destroyOutput` of index.js at the map level: a key absent from the
`outputs` map returns immediately (no teardown step); an active key runs the
full teardown trace and is deleted from the map. -/
def destroyOutput (outputs : OutMap) (k : String) : OutMap × List TeardownStep :=
  match outputs.find? (fun p => p.1 == k) with
  | none => (outputs, [])
  | some _ => (removeKey outputs k, destroyOutputTrace)

/- ===================== Settings (settings.js) ===================== -/

/-- One output's entry in the `ndi-settings.json` document.  JavaScript
truthiness of the numeric `customWidth` / `customHeight` is `≠ 0`. -/
structure OutputSettings where
  enabled : Bool
  resolution : String
  customWidth : Int
  customHeight : Int
  framerate : Int
  sourceName : String
deriving DecidableEq, Repr

/-- A resolved `{ width, height }` pair. -/
structure Resolution where
  width : Int
  height : Int
deriving DecidableEq, Repr

/-- The preset table of `_resolveResolution`. -/
def presets (r : String) : Option Resolution :=
  if r = "720p" then some ⟨1280, 720⟩
  else if r = "1080p" then some ⟨1920, 1080⟩
  else if r = "4k" then some ⟨3840, 2160⟩
  else none

/-- `_resolveResolution`: a custom resolution with both custom dimensions
truthy is clamped to `[320, 7680] × [240, 4320]`; anything else falls back
to the preset table, defaulting to the 1080p preset. -/
def resolveResolution (config : OutputSettings) : Resolution :=
  if config.resolution = "custom" ∧ config.customWidth ≠ 0 ∧ config.customHeight ≠ 0 then
    { width := max 320 (min 7680 config.customWidth),
      height := max 240 (min 4320 config.customHeight) }
  else (presets config.resolution).getD ⟨1920, 1080⟩

/-- The settings document. -/
structure Settings where
  installed : Bool
  version : String
  installPath : String
  autoLaunch : Bool
  outputs : List (String × OutputSettings)
deriving DecidableEq, Repr

/-- One entry of the list returned by `getEnabledOutputs`:
`{ key, ...config, ...resolveResolution(config) }` — the resolved width and
height override anything in the raw config. -/
structure EnabledOutput where
  key : String
  config : OutputSettings
  width : Int
  height : Int
deriving DecidableEq, Repr

/-- `getEnabledOutputs`: with no settings loaded the list is empty; otherwise
the enabled outputs, each with its resolved width/height. -/
def getEnabledOutputs (settings : Option Settings) : List EnabledOutput :=
  match settings with
  | none => []
  | some st =>
    (st.outputs.filter (fun p => p.2.enabled)).map (fun p =>
      { key := p.1, config := p.2,
        width := (resolveResolution p.2).width,
        height := (resolveResolution p.2).height })

/-- The `nameMap` of `_getDefaultOutput`. -/
def nameMap (outputKey : String) : String :=
  if outputKey = "output1" then "LyricDisplay Output 1"
  else if outputKey = "output2" then "LyricDisplay Output 2"
  else if outputKey = "stage" then "LyricDisplay Stage"
  else "LyricDisplay " ++ outputKey

/-- `_getDefaultOutput`: disabled, 1080p, 30 fps. -/
def getDefaultOutput (outputKey : String) : OutputSettings :=
  { enabled := false, resolution := "1080p", customWidth := 1920,
    customHeight := 1080, framerate := 30, sourceName := nameMap outputKey }

/-- `_getDefaults`: the default settings document with all three outputs
disabled. -/
def getDefaults : Settings :=
  { installed := false, version := "", installPath := "", autoLaunch := false,
    outputs := [("output1", getDefaultOutput "output1"),
                ("output2", getDefaultOutput "output2"),
                ("stage", getDefaultOutput "stage")] }

/-- `load` of settings.js: a missing file or a parse failure installs the
defaults instead of throwing; a successfully parsed file is used as-is. -/
def load (fileExists : Bool) (parsed : Except String Settings) : Settings :=
  if fileExists then
    match parsed with
    | Except.ok s => s
    | Except.error _ => getDefaults
  else getDefaults

/-- The snapshot entry `syncOutputs` derives from one enabled output:
index.js reads `key`, `width`, `height`, `framerate`, `sourceName`. -/
def toSnapshotEntry (e : EnabledOutput) : String × OutConfig :=
  (e.key, { width := e.width, height := e.height,
            framerate := e.config.framerate, sourceName := e.config.sourceName })

end LyricDisplayNdi

namespace LyricDisplayNdi

/- ===================== Helper lemmas ===================== -/

/-- A key deleted from the outputs map can no longer be found. -/
theorem find?_removeKey (m : OutMap) (k : String) :
    (removeKey m k).find? (fun p => p.1 == k) = none := by
  rw [List.find?_eq_none]
  intro p hp
  have h2 := (List.mem_filter.mp hp).2
  simpa [bne] using h2

/- ===================== C3 ===================== -/

/-- C3: the latest-frame cell of an `OutputCapture` is `none` before the
first publish and again right after `stop`; after any nonempty sequence of
publishes `getLatestFrame` returns exactly the last published frame. -/
theorem getLatestFrame_latest_only (key : String) (w h fr : Int)
    (s : OutputCapture) (fs : List Frame) (f : Frame) :
    (OutputCapture.init key w h fr).getLatestFrame = none ∧
    (s.publishAll (fs ++ [f])).getLatestFrame = some f ∧
    s.stop.getLatestFrame = none := by
  refine ⟨rfl, ?_, rfl⟩
  simp [OutputCapture.publishAll, OutputCapture.publish, OutputCapture.getLatestFrame]

/- ===================== C4 ===================== -/

/-- C4 (code bug): after a framerate change from 30 to 60 fps, the NDI
transmission timer is restarted at `round (1000 / 60)` ms, but the running
capture loop keeps the stale `1000 / 30` target interval it was started
with, which differs from the interval `1000 / 60` the new rate calls for. -/
theorem setFramerate_leaves_capture_interval_stale :
    ((OutputCapture.init "output1" 1920 1080 30).startPolling.setFramerate 60).loopTargetInterval
      = some ((1000 : ℚ) / 30) ∧
    (1000 : ℚ) / 30 ≠ (1000 : ℚ) / 60 ∧
    (((NdiSender.init "LyricDisplay Output 1" 1920 1080 30).initializeSender.startSending).setFramerate
        60).frameInterval = some 17 ∧
    round ((1000 : ℚ) / 60) = 17 := by
  refine ⟨?_, by norm_num, ?_, by norm_num [round_eq]⟩
  · simp [OutputCapture.init, OutputCapture.startPolling, OutputCapture.setFramerate]
  · simp [NdiSender.init, NdiSender.initializeSender, NdiSender.startSending,
      NdiSender.stopSending, NdiSender.setFramerate]
    norm_num [round_eq]

/- ===================== C5 ===================== -/

/-- C5 (counterexample): the teardown trace actually performed by
`destroyOutput` does not satisfy the ordering asserted by the
specification — in the code the sender is released before the capture loop
is stopped, and the frame cell is cleared before the render surface is
released. -/
theorem destroyOutput_spec_order_false : ¬ specTeardownOrder destroyOutputTrace := by
  unfold specTeardownOrder destroyOutputTrace ndiDestroyTrace captureStopTrace
  decide

/-- C5 (amended): `destroyOutput` on an active output stops the transmission
loop first (so no further sends occur), then releases the sender, then stops
the capture loop, then clears the latest-frame cell, and releases the render
surface last. -/
theorem destroyOutput_actual_order :
    destroyOutputTrace.indexOf TeardownStep.stopTransmission = 0 ∧
    destroyOutputTrace.indexOf TeardownStep.stopTransmission
      < destroyOutputTrace.indexOf TeardownStep.releaseSender ∧
    destroyOutputTrace.indexOf TeardownStep.releaseSender
      < destroyOutputTrace.indexOf TeardownStep.stopCapture ∧
    destroyOutputTrace.indexOf TeardownStep.stopCapture
      < destroyOutputTrace.indexOf TeardownStep.clearFrameBuffer ∧
    destroyOutputTrace.indexOf TeardownStep.clearFrameBuffer
      < destroyOutputTrace.indexOf TeardownStep.releaseSurface := by
  unfold destroyOutputTrace ndiDestroyTrace captureStopTrace
  decide

/- ===================== C7 ===================== -/

/-- C7: `destroyOutput` is idempotent — a second call with the same key
finds the key already removed, performs no teardown step, and leaves the
outputs map unchanged. -/
theorem destroyOutput_idempotent (m : OutMap) (k : String) :
    destroyOutput (destroyOutput m k).1 k = ((destroyOutput m k).1, []) := by
  cases hf : m.find? (fun p => p.1 == k) with
  | none => simp [destroyOutput, hf]
  | some p => simp [destroyOutput, hf, find?_removeKey]

/- ===================== C10 ===================== -/

/-- C10: for a config whose resolution is none of the three presets and is
not a fully-specified custom resolution (both custom dimensions truthy),
`resolveResolution` falls back to the 1080p preset. -/
theorem resolveResolution_default (c : OutputSettings)
    (h1 : c.resolution ≠ "720p") (h2 : c.resolution ≠ "1080p")
    (h3 : c.resolution ≠ "4k")
    (h4 : ¬(c.resolution = "custom" ∧ c.customWidth ≠ 0 ∧ c.customHeight ≠ 0)) :
    resolveResolution c = ⟨1920, 1080⟩ := by
  unfold resolveResolution
  rw [if_neg h4]
  unfold presets
  rw [if_neg h1, if_neg h2, if_neg h3]
  rfl

/-- C10 witness: an unrecognized resolution string resolves to the 1080p
preset even though its custom dimensions would be out of range. -/
theorem resolveResolution_default_witness :
    ("1440p" : String) ≠ "720p" ∧ ("1440p" : String) ≠ "1080p" ∧
    ("1440p" : String) ≠ "4k" ∧
    ¬(("1440p" : String) = "custom" ∧ (99999 : Int) ≠ 0 ∧ (0 : Int) ≠ 0) ∧
    resolveResolution ⟨true, "1440p", 99999, 0, 30, "X"⟩ = ⟨1920, 1080⟩ :=
  ⟨by decide, by decide, by decide, by decide,
    resolveResolution_default ⟨true, "1440p", 99999, 0, 30, "X"⟩
      (by decide) (by decide) (by decide) (by decide)⟩

end LyricDisplayNdi

namespace LyricDisplayNdi

/- ===================== C1 ===================== -/

/-- The pacing sleep never goes below one millisecond. -/
theorem one_le_sleepMs (ti e : ℚ) : 1 ≤ sleepMs ti e := le_max_left _ _

/-- A capture-loop run has one start time per cycle. -/
theorem cycleStarts_length (ti : ℚ) (es : List ℚ) :
    ∀ t0, (cycleStarts ti t0 es).length = es.length := by
  induction es with
  | nil => intro t0; rfl
  | cons e es ih => intro t0; simp [cycleStarts, ih]

/-- The first cycle of a run starts at the run's start time. -/
theorem cycleStarts_getD_zero (ti t0 e : ℚ) (es : List ℚ) :
    (cycleStarts ti t0 (e :: es)).getD 0 0 = t0 := rfl

/-- Consecutive capture cycles never overlap: each cycle starts strictly
after the previous cycle's work has finished. -/
theorem cycleStarts_no_overlap (ti : ℚ) (es : List ℚ) :
    ∀ t0 i, i + 1 < (cycleStarts ti t0 es).length →
      (cycleStarts ti t0 es).getD i 0 + es.getD i 0
        < (cycleStarts ti t0 es).getD (i + 1) 0 := by
  induction es with
  | nil => intro t0 i h; simp [cycleStarts] at h
  | cons e es ih =>
    intro t0 i h
    rw [cycleStarts_length] at h
    cases i with
    | zero =>
      cases es with
      | nil => simp at h
      | cons e2 es2 =>
        have h1 : (1 : ℚ) ≤ sleepMs ti e := one_le_sleepMs ti e
        simp only [cycleStarts, List.getD_cons_zero, List.getD_cons_succ]
        linarith
    | succ j =>
      simp only [cycleStarts, List.getD_cons_succ]
      apply ih
      rw [cycleStarts_length]
      rw [List.length_cons] at h
      omega

/-- C1: with `targetIntervalMs = 1000 / frameRate`, every end-of-cycle sleep
of the adaptive capture loop is `max 1 (targetIntervalMs - elapsed) ≥ 1 > 0`
(never negative), and every capture cycle starts strictly after the previous
cycle has finished its work, so no two cycles of the same loop overlap. -/
theorem captureLoop_pacing (r : ℚ) (hr : 0 < r) (t0 : ℚ) (es : List ℚ) (i : Nat)
    (h : i + 1 < (cycleStarts (targetIntervalMs r) t0 es).length) :
    targetIntervalMs r = 1000 / r ∧
    (∀ e, 0 < sleepMs (targetIntervalMs r) e) ∧
    (cycleStarts (targetIntervalMs r) t0 es).getD i 0 + es.getD i 0
      < (cycleStarts (targetIntervalMs r) t0 es).getD (i + 1) 0 := by
  refine ⟨rfl, fun e => lt_of_lt_of_le zero_lt_one (one_le_sleepMs _ e), ?_⟩
  exact cycleStarts_no_overlap (targetIntervalMs r) es t0 i h

/-- C1 witness: a 30 fps loop with one fast (10 ms) and one slow (50 ms)
cycle: positive sleeps, and cycle 1 starts strictly after cycle 0 ends. -/
theorem captureLoop_pacing_witness :
    (0 : ℚ) < 30 ∧
    0 + 1 < (cycleStarts (targetIntervalMs 30) 0 [10, 50]).length ∧
    (targetIntervalMs 30 = 1000 / 30 ∧
     (∀ e, 0 < sleepMs (targetIntervalMs 30) e) ∧
     (cycleStarts (targetIntervalMs 30) 0 [10, 50]).getD 0 0
        + ([10, 50] : List ℚ).getD 0 0
       < (cycleStarts (targetIntervalMs 30) 0 [10, 50]).getD (0 + 1) 0) :=
  ⟨by norm_num, by simp [cycleStarts_length],
    captureLoop_pacing 30 (by norm_num) 0 [10, 50] 0 (by simp [cycleStarts_length])⟩

/- ===================== C8 ===================== -/

/-- Every resolved resolution lies inside the clamp range, whichever branch
of `resolveResolution` produced it. -/
theorem resolveResolution_bounds (c : OutputSettings) :
    320 ≤ (resolveResolution c).width ∧ (resolveResolution c).width ≤ 7680 ∧
    240 ≤ (resolveResolution c).height ∧ (resolveResolution c).height ≤ 4320 := by
  unfold resolveResolution
  split
  · refine ⟨le_max_left _ _, ?_, le_max_left _ _, ?_⟩
    · exact max_le (by norm_num) (min_le_left _ _)
    · exact max_le (by norm_num) (min_le_left _ _)
  · unfold presets
    (repeat' split) <;> decide

/-- C8: every entry returned by `getEnabledOutputs` carries a resolved width
in [320, 7680] and a resolved height in [240, 4320], including when a custom
resolution supplies out-of-range dimensions. -/
theorem getEnabledOutputs_clamped (settings : Option Settings) (e : EnabledOutput)
    (h : e ∈ getEnabledOutputs settings) :
    320 ≤ e.width ∧ e.width ≤ 7680 ∧ 240 ≤ e.height ∧ e.height ≤ 4320 := by
  match settings with
  | none => simp [getEnabledOutputs] at h
  | some st =>
    simp only [getEnabledOutputs, List.mem_map] at h
    obtain ⟨p, hp, rfl⟩ := h
    simpa using resolveResolution_bounds p.2

/-- C8 witness: an enabled output with an out-of-range custom resolution of
99999 × 10 is returned clamped to 7680 × 240. -/
theorem getEnabledOutputs_clamped_witness :
    ((⟨"output1", ⟨true, "custom", 99999, 10, 30, "Big"⟩, 7680, 240⟩ : EnabledOutput) ∈
        getEnabledOutputs (some (⟨false, "", "", false,
          [("output1", ⟨true, "custom", 99999, 10, 30, "Big"⟩)]⟩ : Settings))) ∧
    (320 ≤ ((⟨"output1", ⟨true, "custom", 99999, 10, 30, "Big"⟩, 7680, 240⟩ : EnabledOutput)).width ∧
     ((⟨"output1", ⟨true, "custom", 99999, 10, 30, "Big"⟩, 7680, 240⟩ : EnabledOutput)).width ≤ 7680 ∧
     240 ≤ ((⟨"output1", ⟨true, "custom", 99999, 10, 30, "Big"⟩, 7680, 240⟩ : EnabledOutput)).height ∧
     ((⟨"output1", ⟨true, "custom", 99999, 10, 30, "Big"⟩, 7680, 240⟩ : EnabledOutput)).height ≤ 4320) :=
  ⟨by decide,
    getEnabledOutputs_clamped
      (some (⟨false, "", "", false,
        [("output1", ⟨true, "custom", 99999, 10, 30, "Big"⟩)]⟩ : Settings))
      ⟨"output1", ⟨true, "custom", 99999, 10, 30, "Big"⟩, 7680, 240⟩
      (by decide)⟩

/- ===================== C9 ===================== -/

/-- Reconciling any active-outputs map against an empty snapshot destroys
every active output, leaving zero. -/
theorem syncOutputs_nil (m : OutMap) : (syncOutputs m []).1 = [] := by
  simp [syncOutputs, syncList]

/-- C9: a missing or unparsable settings file makes `load` install the
defaults without throwing; every default output is disabled, so
`getEnabledOutputs` is empty and the orchestrator reconciles any active set
down to zero outputs. -/
theorem load_failure_yields_no_outputs (fileExists : Bool)
    (parsed : Except String Settings) (m : OutMap)
    (h : fileExists = false ∨ ∃ e, parsed = Except.error e) :
    load fileExists parsed = getDefaults ∧
    getEnabledOutputs (some (load fileExists parsed)) = [] ∧
    (syncOutputs m
        ((getEnabledOutputs (some (load fileExists parsed))).map toSnapshotEntry)).1 = [] := by
  have hload : load fileExists parsed = getDefaults := by
    rcases h with h | ⟨e, he⟩
    · rw [h]; rfl
    · subst he; cases fileExists <;> rfl
  have hempty : getEnabledOutputs (some getDefaults) = [] := rfl
  refine ⟨hload, ?_, ?_⟩
  · rw [hload]; exact hempty
  · rw [hload, hempty]
    simp only [List.map_nil]
    exact syncOutputs_nil m

/-- C9 witness: with the settings file missing, one previously active output
is reconciled away and the active set becomes empty. -/
theorem load_failure_yields_no_outputs_witness :
    ((false = false) ∨ ∃ e, (Except.ok getDefaults : Except String Settings) = Except.error e) ∧
    (load false (Except.ok getDefaults) = getDefaults ∧
     getEnabledOutputs (some (load false (Except.ok getDefaults))) = [] ∧
     (syncOutputs [("output1", ⟨1920, 1080, 30, "A"⟩)]
        ((getEnabledOutputs (some (load false (Except.ok getDefaults)))).map toSnapshotEntry)).1 = []) :=
  ⟨Or.inl rfl, load_failure_yields_no_outputs false (Except.ok getDefaults)
      [("output1", ⟨1920, 1080, 30, "A"⟩)] (Or.inl rfl)⟩

end LyricDisplayNdi

namespace LyricDisplayNdi

/- ===================== Association-list lemmas for the outputs map ===================== -/

/-- Unfolding `lookupKey` over a cons cell. -/
theorem lookupKey_cons (p : String × OutConfig) (m : OutMap) (k : String) :
    lookupKey (p :: m) k = if p.1 = k then some p.2 else lookupKey m k := by
  by_cases h : p.1 = k
  · rw [if_pos h]
    unfold lookupKey
    rw [List.find?_cons_of_pos _ (by simpa using h)]
    rfl
  · rw [if_neg h]
    unfold lookupKey
    rw [List.find?_cons_of_neg _ (by simpa using h)]

/-- Unfolding `removeKey` over a cons cell. -/
theorem removeKey_cons (p : String × OutConfig) (m : OutMap) (k : String) :
    removeKey (p :: m) k = if p.1 = k then removeKey m k else p :: removeKey m k := by
  unfold removeKey
  rw [List.filter_cons]
  by_cases h : p.1 = k
  · have hb : (p.1 != k) = false := by simp [bne, h]
    rw [hb, if_pos h]
    simp
  · have hb : (p.1 != k) = true := by simp [bne, h]
    rw [hb, if_neg h]
    simp

/-- Unfolding `setConfig` over a cons cell. -/
theorem setConfig_cons (p : String × OutConfig) (m : OutMap) (k : String) (c : OutConfig) :
    setConfig (p :: m) k c = (if p.1 = k then (p.1, c) else p) :: setConfig m k c := by
  unfold setConfig
  rw [List.map_cons]

/-- A key is absent from the map iff its lookup fails. -/
theorem lookupKey_none_iff (m : OutMap) (k : String) :
    lookupKey m k = none ↔ k ∉ m.map Prod.fst := by
  induction m with
  | nil => simp [lookupKey]
  | cons p m ih =>
    rw [lookupKey_cons]
    by_cases h : p.1 = k
    · simp [← h]
    · simp only [if_neg h, List.map_cons, List.mem_cons, ih]
      constructor
      · intro hk hor
        rcases hor with hor | hor
        · exact h hor.symm
        · exact hk hor
      · intro hk hm
        exact hk (Or.inr hm)

/-- Appending entries after the map does not change the lookup of a key the
map already holds. -/
theorem lookupKey_append_left (m1 m2 : OutMap) (k : String)
    (h : k ∈ m1.map Prod.fst) : lookupKey (m1 ++ m2) k = lookupKey m1 k := by
  induction m1 with
  | nil => simp at h
  | cons p m1 ih =>
    rw [List.cons_append, lookupKey_cons, lookupKey_cons]
    by_cases hp : p.1 = k
    · rw [if_pos hp, if_pos hp]
    · rw [if_neg hp, if_neg hp]
      apply ih
      rw [List.map_cons, List.mem_cons] at h
      rcases h with h | h
      · exact absurd h.symm hp
      · exact h

/-- Looking up a key absent from the front part skips over it. -/
theorem lookupKey_append_right (m1 m2 : OutMap) (k : String)
    (h : k ∉ m1.map Prod.fst) : lookupKey (m1 ++ m2) k = lookupKey m2 k := by
  induction m1 with
  | nil => rfl
  | cons p m1 ih =>
    rw [List.map_cons, List.mem_cons] at h
    push_neg at h
    rw [List.cons_append, lookupKey_cons, if_neg (fun hp => h.1 hp.symm)]
    exact ih h.2

end LyricDisplayNdi

namespace LyricDisplayNdi

/-- `setConfig` does not change the key set. -/
theorem keys_setConfig (m : OutMap) (k : String) (c : OutConfig) :
    (setConfig m k c).map Prod.fst = m.map Prod.fst := by
  induction m with
  | nil => rfl
  | cons p m ih =>
    rw [setConfig_cons, List.map_cons, List.map_cons, ih]
    by_cases h : p.1 = k <;> simp [h]

/-- `setConfig` rebinds a present key to the new config. -/
theorem lookupKey_setConfig_self (m : OutMap) (k : String) (c : OutConfig)
    (h : k ∈ m.map Prod.fst) : lookupKey (setConfig m k c) k = some c := by
  induction m with
  | nil => simp at h
  | cons p m ih =>
    rw [setConfig_cons, lookupKey_cons]
    by_cases hp : p.1 = k
    · rw [if_pos hp]
      simp [hp]
    · rw [if_neg hp]
      simp only [if_neg hp]
      apply ih
      rw [List.map_cons, List.mem_cons] at h
      rcases h with h | h
      · exact absurd h.symm hp
      · exact h

/-- `setConfig` leaves every other key's binding unchanged. -/
theorem lookupKey_setConfig_other (m : OutMap) (k : String) (c : OutConfig)
    (k' : String) (h : k' ≠ k) :
    lookupKey (setConfig m k c) k' = lookupKey m k' := by
  induction m with
  | nil => rfl
  | cons p m ih =>
    rw [setConfig_cons, lookupKey_cons, lookupKey_cons]
    by_cases hp : p.1 = k
    · rw [if_pos hp]
      have hpk' : p.1 ≠ k' := by rw [hp]; exact fun hh => h hh.symm
      simp only [if_neg hpk']
      exact ih
    · rw [if_neg hp]
      by_cases hq : p.1 = k'
      · rw [if_pos hq, if_pos hq]
      · rw [if_neg hq, if_neg hq]
        exact ih

/-- Rebinding an absent key changes nothing. -/
theorem setConfig_not_mem (m : OutMap) (k : String) (c : OutConfig)
    (h : k ∉ m.map Prod.fst) : setConfig m k c = m := by
  induction m with
  | nil => rfl
  | cons p m ih =>
    rw [List.map_cons, List.mem_cons] at h
    push_neg at h
    rw [setConfig_cons, if_neg (fun hp => h.1 hp.symm), ih h.2]

/-- Rebinding a key to the config it already holds is the identity, when
keys are unique. -/
theorem setConfig_lookup_eq_self (m : OutMap) (k : String) (c : OutConfig)
    (hnd : (m.map Prod.fst).Nodup) (h : lookupKey m k = some c) :
    setConfig m k c = m := by
  induction m with
  | nil => rfl
  | cons p m ih =>
    rw [lookupKey_cons] at h
    rw [List.map_cons, List.nodup_cons] at hnd
    rw [setConfig_cons]
    by_cases hp : p.1 = k
    · rw [if_pos hp] at h
      have hc : p.2 = c := by injection h
      have hk : k ∉ m.map Prod.fst := hp ▸ hnd.1
      rw [if_pos hp, ← hc, setConfig_not_mem m k p.2 hk]
    · rw [if_neg hp] at h
      rw [if_neg hp, ih hnd.2 h]

/-- A deleted key cannot be looked up. -/
theorem lookupKey_removeKey_self (m : OutMap) (k : String) :
    lookupKey (removeKey m k) k = none := by
  rw [lookupKey_none_iff]
  intro h
  rcases List.mem_map.mp h with ⟨p, hp, hpk⟩
  have := (List.mem_filter.mp hp).2
  simp [bne, hpk] at this

/-- Deleting a key leaves every other key's binding unchanged. -/
theorem lookupKey_removeKey_other (m : OutMap) (k k' : String) (h : k' ≠ k) :
    lookupKey (removeKey m k) k' = lookupKey m k' := by
  induction m with
  | nil => rfl
  | cons p m ih =>
    rw [removeKey_cons, lookupKey_cons]
    by_cases hp : p.1 = k
    · rw [if_pos hp]
      have hpk' : p.1 ≠ k' := by rw [hp]; exact fun hh => h hh.symm
      rw [if_neg hpk']
      exact ih
    · rw [if_neg hp, lookupKey_cons]
      by_cases hq : p.1 = k'
      · rw [if_pos hq, if_pos hq]
      · rw [if_neg hq, if_neg hq]
        exact ih

/-- The deleted key is gone from the key set. -/
theorem not_mem_keys_removeKey (m : OutMap) (k : String) :
    k ∉ (removeKey m k).map Prod.fst := by
  intro h
  rcases List.mem_map.mp h with ⟨p, hp, hpk⟩
  have := (List.mem_filter.mp hp).2
  simp [bne, hpk] at this

/-- Deleting a key preserves uniqueness of the key set. -/
theorem nodup_keys_removeKey (m : OutMap) (k : String)
    (h : (m.map Prod.fst).Nodup) : ((removeKey m k).map Prod.fst).Nodup :=
  h.sublist ((List.filter_sublist m).map Prod.fst)

/-- Every key of `removeKey m k` is a key of `m`. -/
theorem keys_removeKey_subset (m : OutMap) (k k'' : String)
    (h : k'' ∈ (removeKey m k).map Prod.fst) : k'' ∈ m.map Prod.fst := by
  rcases List.mem_map.mp h with ⟨p, hp, hpk⟩
  exact List.mem_map.mpr ⟨p, (List.mem_filter.mp hp).1, hpk⟩

end LyricDisplayNdi

namespace LyricDisplayNdi

/- ===================== Behaviour of one reconciliation step ===================== -/

/-- Looking up any other key skips a single appended entry. -/
theorem lookupKey_append_single (m : OutMap) (k : String) (c : OutConfig)
    (k' : String) (hk : k' ≠ k) :
    lookupKey (m ++ [(k, c)]) k' = lookupKey m k' := by
  by_cases hmem : k' ∈ m.map Prod.fst
  · exact lookupKey_append_left _ _ _ hmem
  · rw [lookupKey_append_right _ _ _ hmem, lookupKey_cons, if_neg (fun h => hk h.symm)]
    exact ((lookupKey_none_iff m k').mpr hmem).symm

/-- `syncOne` on a key with no active pipeline: create it. -/
theorem syncOne_none (m : OutMap) (k : String) (c : OutConfig)
    (hl : lookupKey m k = none) :
    syncOne m (k, c) = (m ++ [(k, c)], [Op.create k]) := by
  unfold syncOne
  dsimp only
  rw [hl]

/-- `syncOne` on an active key whose geometry changed: scalar updates, then
destroy and recreate. -/
theorem syncOne_recreate (m : OutMap) (k : String) (c oc : OutConfig)
    (hl : lookupKey m k = some oc)
    (hrec : (oc.width != c.width || oc.height != c.height) = true) :
    syncOne m (k, c) =
      (removeKey (setConfig m k ⟨oc.width, oc.height, c.framerate, c.sourceName⟩) k ++ [(k, c)],
       (if oc.framerate != c.framerate then [Op.setFramerate k c.framerate] else []) ++
         (if oc.sourceName != c.sourceName then [Op.setSourceName k c.sourceName] else []) ++
         [Op.destroy k, Op.create k]) := by
  unfold syncOne
  dsimp only
  rw [hl]
  dsimp only
  rw [if_pos hrec]

/-- `syncOne` on an active key with unchanged geometry: in-place scalar
updates only. -/
theorem syncOne_update (m : OutMap) (k : String) (c oc : OutConfig)
    (hl : lookupKey m k = some oc)
    (hrec : ¬((oc.width != c.width || oc.height != c.height) = true)) :
    syncOne m (k, c) =
      (setConfig m k ⟨oc.width, oc.height, c.framerate, c.sourceName⟩,
       (if oc.framerate != c.framerate then [Op.setFramerate k c.framerate] else []) ++
         (if oc.sourceName != c.sourceName then [Op.setSourceName k c.sourceName] else [])) := by
  unfold syncOne
  dsimp only
  rw [hl]
  dsimp only
  rw [if_neg hrec]

/-- A matched entry is a complete no-op for `syncOne`: no operation is
performed and the outputs map is unchanged. -/
theorem syncOne_matched (m : OutMap) (k : String) (c : OutConfig)
    (hnd : (m.map Prod.fst).Nodup) (h : lookupKey m k = some c) :
    syncOne m (k, c) = (m, []) := by
  have hrec : ¬((c.width != c.width || c.height != c.height) = true) := by simp
  rw [syncOne_update m k c c h hrec]
  have hfr : (c.framerate != c.framerate) = false := by simp
  have hsn : (c.sourceName != c.sourceName) = false := by simp
  have h2 : setConfig m k ⟨c.width, c.height, c.framerate, c.sourceName⟩ = m := by
    obtain ⟨w, ht, fr, sn⟩ := c
    exact setConfig_lookup_eq_self m k ⟨w, ht, fr, sn⟩ hnd h
  rw [hfr, hsn, h2]
  simp

/-- After `syncOne` for entry `(k, c)`, key `k` is bound to exactly `c`. -/
theorem syncOne_lookup_self (m : OutMap) (k : String) (c : OutConfig) :
    lookupKey (syncOne m (k, c)).1 k = some c := by
  cases hl : lookupKey m k with
  | none =>
    rw [syncOne_none m k c hl]
    dsimp only
    rw [lookupKey_append_right m _ k ((lookupKey_none_iff m k).mp hl), lookupKey_cons]
    simp
  | some oc =>
    by_cases hrec : (oc.width != c.width || oc.height != c.height) = true
    · rw [syncOne_recreate m k c oc hl hrec]
      dsimp only
      rw [lookupKey_append_right _ _ k (not_mem_keys_removeKey _ k), lookupKey_cons]
      simp
    · rw [syncOne_update m k c oc hl hrec]
      dsimp only
      have hmem : k ∈ m.map Prod.fst := by
        by_contra hk
        rw [← lookupKey_none_iff] at hk
        rw [hl] at hk
        exact Option.noConfusion hk
      rw [lookupKey_setConfig_self _ _ _ hmem]
      have hrec' : oc.width = c.width ∧ oc.height = c.height := by
        simpa [not_or] using hrec
      rw [hrec'.1, hrec'.2]

/-- `syncOne` for entry `(k, c)` leaves every other key's binding unchanged. -/
theorem syncOne_lookup_other (m : OutMap) (k : String) (c : OutConfig)
    (k' : String) (hk : k' ≠ k) :
    lookupKey (syncOne m (k, c)).1 k' = lookupKey m k' := by
  cases hl : lookupKey m k with
  | none =>
    rw [syncOne_none m k c hl]
    dsimp only
    rw [lookupKey_append_single _ _ _ _ hk]
  | some oc =>
    by_cases hrec : (oc.width != c.width || oc.height != c.height) = true
    · rw [syncOne_recreate m k c oc hl hrec]
      dsimp only
      rw [lookupKey_append_single _ _ _ _ hk, lookupKey_removeKey_other _ _ _ hk,
        lookupKey_setConfig_other _ _ _ _ hk]
    · rw [syncOne_update m k c oc hl hrec]
      dsimp only
      rw [lookupKey_setConfig_other _ _ _ _ hk]

/-- Any key present after `syncOne` was present before or is the entry's key. -/
theorem syncOne_keys_mem (m : OutMap) (k : String) (c : OutConfig) (k'' : String)
    (h : k'' ∈ (syncOne m (k, c)).1.map Prod.fst) :
    k'' ∈ m.map Prod.fst ∨ k'' = k := by
  cases hl : lookupKey m k with
  | none =>
    rw [syncOne_none m k c hl] at h
    dsimp only at h
    rw [List.map_append] at h
    rcases List.mem_append.mp h with h | h
    · exact Or.inl h
    · right; simpa using h
  | some oc =>
    by_cases hrec : (oc.width != c.width || oc.height != c.height) = true
    · rw [syncOne_recreate m k c oc hl hrec] at h
      dsimp only at h
      rw [List.map_append] at h
      rcases List.mem_append.mp h with h | h
      · left
        have h2 := keys_removeKey_subset _ _ _ h
        rwa [keys_setConfig] at h2
      · right; simpa using h
    · rw [syncOne_update m k c oc hl hrec] at h
      dsimp only at h
      rw [keys_setConfig] at h
      exact Or.inl h

/-- `syncOne` preserves uniqueness of the key set. -/
theorem syncOne_keys_nodup (m : OutMap) (k : String) (c : OutConfig)
    (hnd : (m.map Prod.fst).Nodup) :
    ((syncOne m (k, c)).1.map Prod.fst).Nodup := by
  cases hl : lookupKey m k with
  | none =>
    rw [syncOne_none m k c hl]
    dsimp only
    rw [List.map_append, List.nodup_append]
    refine ⟨hnd, by simp, ?_⟩
    intro a ha hb
    simp only [List.map_cons, List.map_nil, List.mem_singleton] at hb
    rw [hb] at ha
    exact ((lookupKey_none_iff m k).mp hl) ha
  | some oc =>
    by_cases hrec : (oc.width != c.width || oc.height != c.height) = true
    · rw [syncOne_recreate m k c oc hl hrec]
      dsimp only
      rw [List.map_append, List.nodup_append]
      have hnd1 : ((setConfig m k
          ⟨oc.width, oc.height, c.framerate, c.sourceName⟩).map Prod.fst).Nodup := by
        rw [keys_setConfig]; exact hnd
      refine ⟨nodup_keys_removeKey _ _ hnd1, by simp, ?_⟩
      intro a ha hb
      simp only [List.map_cons, List.map_nil, List.mem_singleton] at hb
      rw [hb] at ha
      exact not_mem_keys_removeKey _ _ ha
    · rw [syncOne_update m k c oc hl hrec]
      dsimp only
      rw [keys_setConfig]
      exact hnd

/-- An operation drawn from a conditional singleton list is that operation. -/
theorem op_eq_of_mem_ite (b : Bool) (x op : Op)
    (h : op ∈ if b = true then [x] else []) : op = x := by
  rcases b with _ | _
  · simp at h
  · simpa using h

/-- Every operation emitted by `syncOne` targets the entry's own key. -/
theorem syncOne_ops_key (m : OutMap) (k : String) (c : OutConfig) (op : Op)
    (h : op ∈ (syncOne m (k, c)).2) : op.key = k := by
  cases hl : lookupKey m k with
  | none =>
    rw [syncOne_none m k c hl] at h
    rw [List.mem_singleton] at h
    simp [h, Op.key]
  | some oc =>
    by_cases hrec : (oc.width != c.width || oc.height != c.height) = true
    · rw [syncOne_recreate m k c oc hl hrec] at h
      rcases List.mem_append.mp h with h1 | h1
      · rcases List.mem_append.mp h1 with h2 | h2
        · simp [op_eq_of_mem_ite _ _ _ h2, Op.key]
        · simp [op_eq_of_mem_ite _ _ _ h2, Op.key]
      · simp only [List.mem_cons, List.mem_singleton, List.not_mem_nil,
          or_false] at h1
        rcases h1 with h3 | h3 <;> simp [h3, Op.key]
    · rw [syncOne_update m k c oc hl hrec] at h
      rcases List.mem_append.mp h with h1 | h1
      · simp [op_eq_of_mem_ite _ _ _ h1, Op.key]
      · simp [op_eq_of_mem_ite _ _ _ h1, Op.key]

end LyricDisplayNdi

namespace LyricDisplayNdi

/- ===================== Behaviour of the create-or-update loop ===================== -/

/-- `syncList` over an appended snapshot runs the two parts in sequence. -/
theorem syncList_append (l1 l2 : List (String × OutConfig)) :
    ∀ m : OutMap, syncList m (l1 ++ l2) =
      ((syncList (syncList m l1).1 l2).1,
       (syncList m l1).2 ++ (syncList (syncList m l1).1 l2).2) := by
  induction l1 with
  | nil => intro m; simp [syncList]
  | cons e l1 ih =>
    intro m
    rw [List.cons_append]
    simp only [syncList]
    rw [ih (syncOne m e).1]
    simp [List.append_assoc]

/-- A fully matched snapshot list is a complete no-op for `syncList`. -/
theorem syncList_matched (snap : List (String × OutConfig)) (m : OutMap)
    (hnd : (m.map Prod.fst).Nodup)
    (h : ∀ e ∈ snap, lookupKey m e.1 = some e.2) :
    syncList m snap = (m, []) := by
  induction snap with
  | nil => rfl
  | cons e rest ih =>
    have he := h e (List.mem_cons_self _ _)
    have hm : syncOne m e = (m, []) := by
      obtain ⟨k, c⟩ := e
      exact syncOne_matched m k c hnd he
    simp only [syncList, hm]
    rw [ih (fun e' he' => h e' (List.mem_cons_of_mem _ he'))]
    rfl

/-- Keys outside the snapshot keep their bindings through `syncList`. -/
theorem syncList_lookup_other (snap : List (String × OutConfig)) (k' : String) :
    ∀ m : OutMap, k' ∉ snap.map Prod.fst →
      lookupKey (syncList m snap).1 k' = lookupKey m k' := by
  induction snap with
  | nil => intro m _; rfl
  | cons e rest ih =>
    intro m h
    rw [List.map_cons, List.mem_cons] at h
    push_neg at h
    simp only [syncList]
    rw [ih (syncOne m e).1 h.2]
    obtain ⟨k, c⟩ := e
    exact syncOne_lookup_other m k c k' h.1

/-- `syncList` preserves uniqueness of the key set. -/
theorem syncList_keys_nodup (snap : List (String × OutConfig)) :
    ∀ m : OutMap, (m.map Prod.fst).Nodup →
      ((syncList m snap).1.map Prod.fst).Nodup := by
  induction snap with
  | nil => intro m hnd; exact hnd
  | cons e rest ih =>
    intro m hnd
    simp only [syncList]
    apply ih
    obtain ⟨k, c⟩ := e
    exact syncOne_keys_nodup m k c hnd

/-- Keys present after `syncList` come from the original map or the snapshot. -/
theorem syncList_keys_mem (snap : List (String × OutConfig)) (K : List String) :
    ∀ m : OutMap, (∀ p ∈ m, p.1 ∈ K) → (∀ e ∈ snap, e.1 ∈ K) →
      ∀ p ∈ (syncList m snap).1, p.1 ∈ K := by
  induction snap with
  | nil => intro m hm _ p hp; exact hm p hp
  | cons e rest ih =>
    intro m hm hs p hp
    simp only [syncList] at hp
    refine ih (syncOne m e).1 ?_ (fun e' he' => hs e' (List.mem_cons_of_mem _ he')) p hp
    intro q hq
    obtain ⟨k, c⟩ := e
    rcases syncOne_keys_mem m k c q.1 (List.mem_map_of_mem Prod.fst hq) with h | h
    · rcases List.mem_map.mp h with ⟨r, hr, hrq⟩
      rw [← hrq]
      exact hm r hr
    · rw [h]
      exact hs (k, c) (List.mem_cons_self _ _)

/-- After `syncList` over a duplicate-free snapshot, every snapshot entry is
bound to exactly its snapshot config. -/
theorem syncList_lookup_processed (snap : List (String × OutConfig)) :
    ∀ m : OutMap, (m.map Prod.fst).Nodup → (snap.map Prod.fst).Nodup →
      ∀ e ∈ snap, lookupKey (syncList m snap).1 e.1 = some e.2 := by
  induction snap with
  | nil => intro m _ _ e he; simp at he
  | cons e0 rest ih =>
    intro m hnd hsnap e he
    rw [List.map_cons, List.nodup_cons] at hsnap
    simp only [syncList]
    rcases List.mem_cons.mp he with rfl | he2
    · rw [syncList_lookup_other rest e.1 (syncOne m e).1 hsnap.1]
      obtain ⟨k, c⟩ := e
      exact syncOne_lookup_self m k c
    · have hnd1 : (((syncOne m e0).1).map Prod.fst).Nodup := by
        obtain ⟨k, c⟩ := e0
        exact syncOne_keys_nodup m k c hnd
      exact ih (syncOne m e0).1 hnd1 hsnap.2 e he2

end LyricDisplayNdi

namespace LyricDisplayNdi

/- ===================== Behaviour of syncOutputs ===================== -/

/-- Reconciling a map that already matches the snapshot performs no
operation and leaves the map unchanged. -/
theorem syncOutputs_matched_noop (m : OutMap) (snap : List (String × OutConfig))
    (h : Matched m snap) : syncOutputs m snap = (m, []) := by
  obtain ⟨h1, h2, h3⟩ := h
  unfold syncOutputs
  have hrem : m.filter (fun p => !((snap.map Prod.fst).contains p.1)) = [] := by
    rw [List.filter_eq_nil_iff]
    intro p hp
    simp
    rcases List.mem_map.mp (h2 p hp) with ⟨q, hq, hq1⟩
    have hpq : (p.1, q.2) = q := by rw [← hq1]
    exact ⟨q.2, hpq ▸ hq⟩
  have hkept : m.filter (fun p => (snap.map Prod.fst).contains p.1) = m := by
    rw [List.filter_eq_self]
    intro p hp
    have hc := List.elem_eq_true_of_mem (h2 p hp)
    exact hc
  dsimp only
  rw [hrem, hkept, syncList_matched snap m h3 h1]
  rfl

/-- Reconciliation leaves the map matched to the snapshot it applied. -/
theorem syncOutputs_establishes (m : OutMap) (snap : List (String × OutConfig))
    (h0 : (m.map Prod.fst).Nodup) (hsnap : (snap.map Prod.fst).Nodup) :
    Matched (syncOutputs m snap).1 snap := by
  unfold syncOutputs
  have hknd : ((m.filter (fun p => (snap.map Prod.fst).contains p.1)).map Prod.fst).Nodup :=
    h0.sublist ((List.filter_sublist m).map Prod.fst)
  refine ⟨?_, ?_, ?_⟩
  · exact syncList_lookup_processed snap _ hknd hsnap
  · apply syncList_keys_mem snap (snap.map Prod.fst) _ ?_ ?_
    · intro q hq
      have hc := (List.mem_filter.mp hq).2
      exact List.mem_of_elem_eq_true hc
    · intro e he
      exact List.mem_map_of_mem Prod.fst he
  · exact syncList_keys_nodup snap _ hknd

/-- When the map is matched to a snapshot and a single entry of that
snapshot is replaced, reconciliation reduces to `syncOne` on the replaced
entry: the destroy phase and every other entry are no-ops. -/
theorem syncOutputs_changed_decomp (m : OutMap)
    (pre post : List (String × OutConfig)) (k : String) (c c' : OutConfig)
    (hm : Matched m (pre ++ (k, c) :: post))
    (hsnap : ((pre ++ (k, c) :: post).map Prod.fst).Nodup) :
    syncOutputs m (pre ++ (k, c') :: post) = syncOne m (k, c') := by
  obtain ⟨h1, h2, h3⟩ := hm
  have hkeys : (pre ++ (k, c') :: post).map Prod.fst
      = (pre ++ (k, c) :: post).map Prod.fst := by simp
  have hknotpost : k ∉ post.map Prod.fst := by
    have h4 : ((pre ++ (k, c) :: post).map Prod.fst).Nodup := hsnap
    rw [List.map_append, List.map_cons] at h4
    exact (List.nodup_cons.mp h4.of_append_right).1
  unfold syncOutputs
  simp only [hkeys]
  have hrem : m.filter
      (fun p => !(((pre ++ (k, c) :: post).map Prod.fst).contains p.1)) = [] := by
    rw [List.filter_eq_nil_iff]
    intro p hp
    simp
    rcases List.mem_map.mp (h2 p hp) with ⟨q, hq, hq1⟩
    have hpq : (p.1, q.2) = q := by rw [← hq1]
    rw [List.mem_append, List.mem_cons] at hq
    rcases hq with hq | hq | hq
    · intro hpre
      exact absurd (hpq ▸ hq) (hpre q.2)
    · intro _ hk
      exact absurd (congrArg Prod.fst hq) (by rw [hq1]; exact fun hh => hk hh)
    · intro _ _
      exact ⟨q.2, hpq ▸ hq⟩
  have hkept : m.filter
      (fun p => ((pre ++ (k, c) :: post).map Prod.fst).contains p.1) = m := by
    rw [List.filter_eq_self]
    intro p hp
    have hc := List.elem_eq_true_of_mem (h2 p hp)
    exact hc
  rw [hrem, hkept]
  have hpre : syncList m pre = (m, []) := by
    apply syncList_matched pre m h3
    intro e he
    exact h1 e (List.mem_append.mpr (Or.inl he))
  rw [syncList_append pre ((k, c') :: post) m, hpre]
  simp only [syncList]
  have hpost : syncList (syncOne m (k, c')).1 post = ((syncOne m (k, c')).1, []) := by
    apply syncList_matched post _ (syncOne_keys_nodup m k c' h3)
    intro e he
    have hek : e.1 ≠ k := fun hek => hknotpost (hek ▸ List.mem_map_of_mem Prod.fst he)
    rw [syncOne_lookup_other m k c' e.1 hek]
    exact h1 e (List.mem_append.mpr (Or.inr (List.mem_cons_of_mem _ he)))
  rw [hpost]
  simp

/- ===================== C2 ===================== -/

/-- C2: reconciliation is re-entrant and convergent.  After `syncOutputs`
has applied a snapshot, applying the identical snapshot again performs zero
create, update or destroy operations; and applying a snapshot in which a
single output's entry changed emits operations only for that output's key. -/
theorem syncOutputs_reentrant_minimal (s0 : OutMap)
    (pre post : List (String × OutConfig)) (k : String) (c c' : OutConfig)
    (h0 : (s0.map Prod.fst).Nodup)
    (hsnap : ((pre ++ (k, c) :: post).map Prod.fst).Nodup) :
    (syncOutputs (syncOutputs s0 (pre ++ (k, c) :: post)).1 (pre ++ (k, c) :: post)).2 = [] ∧
    ∀ op ∈ (syncOutputs (syncOutputs s0 (pre ++ (k, c) :: post)).1
        (pre ++ (k, c') :: post)).2, op.key = k := by
  have hm := syncOutputs_establishes s0 (pre ++ (k, c) :: post) h0 hsnap
  constructor
  · rw [syncOutputs_matched_noop _ _ hm]
  · intro op hop
    rw [syncOutputs_changed_decomp _ pre post k c c' hm hsnap] at hop
    exact syncOne_ops_key _ k c' op hop

/-- C2 witness: a two-output snapshot synced from empty; re-syncing the same
snapshot emits no operation, and changing output "b" emits only "b"-keyed
operations. -/
theorem syncOutputs_reentrant_minimal_witness :
    (([] : OutMap).map Prod.fst).Nodup ∧
    ((([("a", ⟨1920, 1080, 30, "A"⟩)] : List (String × OutConfig)) ++
        ("b", (⟨1280, 720, 25, "B"⟩ : OutConfig)) :: []).map Prod.fst).Nodup ∧
    ((syncOutputs (syncOutputs [] ([("a", ⟨1920, 1080, 30, "A"⟩)] ++
          ("b", (⟨1280, 720, 25, "B"⟩ : OutConfig)) :: [])).1
        ([("a", ⟨1920, 1080, 30, "A"⟩)] ++
          ("b", (⟨1280, 720, 25, "B"⟩ : OutConfig)) :: [])).2 = [] ∧
      ∀ op ∈ (syncOutputs (syncOutputs [] ([("a", ⟨1920, 1080, 30, "A"⟩)] ++
            ("b", (⟨1280, 720, 25, "B"⟩ : OutConfig)) :: [])).1
          ([("a", ⟨1920, 1080, 30, "A"⟩)] ++
            ("b", (⟨1280, 720, 60, "B"⟩ : OutConfig)) :: [])).2, op.key = "b") :=
  ⟨by decide, by decide,
    syncOutputs_reentrant_minimal [] [("a", ⟨1920, 1080, 30, "A"⟩)] [] "b"
      ⟨1280, 720, 25, "B"⟩ ⟨1280, 720, 60, "B"⟩ (by decide) (by decide)⟩

/- ===================== C6 ===================== -/

/-- C6: when exactly one enabled output's width or height changed (its other
fields and every other entry unchanged), `syncOutputs` performs exactly a
destroy followed by a create for that output's key, and every other key's
pipeline is left untouched. -/
theorem syncOutputs_geometry_recreates_only_affected (m : OutMap)
    (pre post : List (String × OutConfig)) (k : String) (c c' : OutConfig)
    (k' : String)
    (hm : Matched m (pre ++ (k, c) :: post))
    (hsnap : ((pre ++ (k, c) :: post).map Prod.fst).Nodup)
    (hgeom : c'.width ≠ c.width ∨ c'.height ≠ c.height)
    (hfr : c'.framerate = c.framerate)
    (hsn : c'.sourceName = c.sourceName)
    (hk' : k' ≠ k) :
    (syncOutputs m (pre ++ (k, c') :: post)).2 = [Op.destroy k, Op.create k] ∧
    lookupKey (syncOutputs m (pre ++ (k, c') :: post)).1 k' = lookupKey m k' := by
  have hdec := syncOutputs_changed_decomp m pre post k c c' hm hsnap
  have hlk : lookupKey m k = some c :=
    hm.1 (k, c) (List.mem_append.mpr (Or.inr (List.mem_cons_self _ _)))
  have hrec : (c.width != c'.width || c.height != c'.height) = true := by
    rcases hgeom with h | h
    · have hne : c.width ≠ c'.width := fun hh => h hh.symm
      simp [hne]
    · have hne : c.height ≠ c'.height := fun hh => h hh.symm
      simp [hne]
  have hops : (syncOne m (k, c')).2 = [Op.destroy k, Op.create k] := by
    rw [syncOne_recreate m k c' c hlk hrec]
    have hf : (c.framerate != c'.framerate) = false := by simp [hfr]
    have hs : (c.sourceName != c'.sourceName) = false := by simp [hsn]
    rw [hf, hs]
    simp
  constructor
  · rw [hdec]
    exact hops
  · rw [hdec]
    exact syncOne_lookup_other m k c' k' hk'

/-- C6 witness: with outputs "a" and "b" active and matched, changing only
"b"'s width makes the reconciliation destroy and recreate exactly "b" while
"a" keeps its binding. -/
theorem syncOutputs_geometry_recreates_only_affected_witness :
    Matched [("a", ⟨1920, 1080, 30, "A"⟩), ("b", ⟨1280, 720, 25, "B"⟩)]
      ([("a", ⟨1920, 1080, 30, "A"⟩)] ++ ("b", (⟨1280, 720, 25, "B"⟩ : OutConfig)) :: []) ∧
    ((3840 : Int) ≠ 1280 ∨ (720 : Int) ≠ 720) ∧
    ((syncOutputs [("a", ⟨1920, 1080, 30, "A"⟩), ("b", ⟨1280, 720, 25, "B"⟩)]
        ([("a", ⟨1920, 1080, 30, "A"⟩)] ++
          ("b", (⟨3840, 720, 25, "B"⟩ : OutConfig)) :: [])).2
        = [Op.destroy "b", Op.create "b"] ∧
      lookupKey (syncOutputs [("a", ⟨1920, 1080, 30, "A"⟩), ("b", ⟨1280, 720, 25, "B"⟩)]
          ([("a", ⟨1920, 1080, 30, "A"⟩)] ++
            ("b", (⟨3840, 720, 25, "B"⟩ : OutConfig)) :: [])).1 "a"
        = lookupKey [("a", ⟨1920, 1080, 30, "A"⟩), ("b", ⟨1280, 720, 25, "B"⟩)] "a") :=
  ⟨by decide, by decide,
    syncOutputs_geometry_recreates_only_affected
      [("a", ⟨1920, 1080, 30, "A"⟩), ("b", ⟨1280, 720, 25, "B"⟩)]
      [("a", ⟨1920, 1080, 30, "A"⟩)] [] "b" ⟨1280, 720, 25, "B"⟩ ⟨3840, 720, 25, "B"⟩ "a"
      (by decide) (by decide) (by decide) (by decide) (by decide) (by decide)⟩

end LyricDisplayNdi
